import Mathlib

/-!
Verification development for a protocol-translating gateway ("bedrock-proxy").

The development shallowly embeds the Rust sources:
  * `src/transform.rs` — request normalizer (`transform_payload`), outbound
    mapper (`openai_to_bedrock`), inbound mappers (`bedrock_to_openai`,
    `bedrock_chunk_to_openai`);
  * `src/handlers.rs`  — the frame extractor
    (`extract_json_from_bedrock_chunk`) and the two SSE streaming
    orchestration loops (`invoke_stream_handler`,
    `openai_chat_completions_stream_handler`).

JSON values are modelled by an inductive `Json` mirroring `serde_json::Value`:
objects are key-sorted association lists with unique keys, exactly the
observable behaviour of serde's `BTreeMap<String, Value>` (sorted iteration
order, last-wins insertion).  Numbers are exact rationals; the repository
never relies on float rounding in any property proved here.  Fallible Rust
operations are embedded as `Option`-valued functions, with `none` standing
for a panic or an error return.
-/

/-- A JSON value, mirroring `serde_json::Value`.  Objects carry their members
as an association list kept sorted by key with no duplicates (the invariant
`serde_json`'s `BTreeMap` maintains); all constructions below go through
`Json.mkObj` / `Json.setKey`, which preserve it. -/
inductive Json where
  | null
  | bool (b : Bool)
  | num (q : ℚ)
  | str (s : String)
  | arr (xs : List Json)
  | obj (kvs : List (String × Json))
deriving Inhabited

namespace Json

mutual
/-- Structural equality test (needed because `deriving DecidableEq` does not
support this nested inductive). -/
def beq : Json → Json → Bool
  | .null, .null => true
  | .bool a, .bool b => a == b
  | .num a, .num b => a == b
  | .str a, .str b => a == b
  | .arr a, .arr b => beqList a b
  | .obj a, .obj b => beqKVs a b
  | _, _ => false

/-- Elementwise equality of value lists. -/
def beqList : List Json → List Json → Bool
  | [], [] => true
  | a :: as', b :: bs' => beq a b && beqList as' bs'
  | _, _ => false

/-- Elementwise equality of member lists. -/
def beqKVs (a b : List (String × Json)) : Bool :=
  match a, b with
  | [], [] => true
  | (k, v) :: as', (k', v') :: bs' => k == k' && beq v v' && beqKVs as' bs'
  | _, _ => false
end

mutual
theorem beq_iff : ∀ a b : Json, beq a b = true ↔ a = b
  | .null, b => by cases b <;> simp [beq]
  | .bool x, b => by cases b <;> simp [beq]
  | .num x, b => by cases b <;> simp [beq]
  | .str x, b => by cases b <;> simp [beq]
  | .arr xs, b => by
    cases b with
    | arr ys => simpa [beq] using beqList_iff xs ys
    | null => simp [beq]
    | bool y => simp [beq]
    | num y => simp [beq]
    | str y => simp [beq]
    | obj ys => simp [beq]
  | .obj kvs, b => by
    cases b with
    | obj ys => simpa [beq] using beqKVs_iff kvs ys
    | null => simp [beq]
    | bool y => simp [beq]
    | num y => simp [beq]
    | str y => simp [beq]
    | arr ys => simp [beq]

theorem beqList_iff : ∀ a b : List Json, beqList a b = true ↔ a = b
  | [], b => by cases b <;> simp [beqList]
  | x :: xs, b => by
    cases b with
    | nil => simp [beqList]
    | cons y ys =>
      simp [beqList, beq_iff x y, beqList_iff xs ys]

theorem beqKVs_iff : ∀ a b : List (String × Json), beqKVs a b = true ↔ a = b
  | [], b => by cases b <;> simp [beqKVs]
  | (k, v) :: xs, b => by
    cases b with
    | nil => simp [beqKVs]
    | cons y ys =>
      cases y with
      | mk k' v' =>
        simp [beqKVs, beq_iff v v', beqKVs_iff xs ys, and_assoc]
end

instance : DecidableEq Json := fun a b =>
  decidable_of_iff (beq a b = true) (beq_iff a b)

/-- Insert `(k, v)` into a key-sorted association list, replacing an existing
binding of `k` (the behaviour of `BTreeMap::insert`). -/
def insertKey (k : String) (v : Json) : List (String × Json) → List (String × Json)
  | [] => [(k, v)]
  | (k', v') :: rest =>
    match compare k k' with
    | .lt => (k, v) :: (k', v') :: rest
    | .eq => (k, v) :: rest
    | .gt => (k', v') :: insertKey k v rest

/-- Build an object from a list of members by successive insertion, as the
`serde_json::json!` object form does (later duplicates win, keys end sorted). -/
def mkObj (l : List (String × Json)) : Json :=
  .obj (l.foldl (fun m kv => insertKey kv.1 kv.2 m) [])

/-- Field access, as `Value::get(&str)`: `some` only on objects holding the
key. -/
def get : Json → String → Option Json
  | .obj kvs, k => kvs.lookup k
  | _, _ => none

/-- String view, as `Value::as_str`. -/
def asStr : Json → Option String
  | .str s => some s
  | _ => none

/-- Array view, as `Value::as_array`. -/
def asArr : Json → Option (List Json)
  | .arr xs => some xs
  | _ => none

/-- Integer view, as `Value::as_i64` (only exact integers qualify). -/
def asInt : Json → Option Int
  | .num q => if q.den = 1 then some q.num else none
  | _ => none

/-- Index-assignment `value[key] = v`, as `serde_json`'s `IndexMut` for string
keys: inserting into `Null` first turns it into an empty object, inserting
into an object inserts or replaces, and every other receiver panics
(modelled as `none`). -/
def setKey : Json → String → Json → Option Json
  | .null, k, v => some (.obj [(k, v)])
  | .obj kvs, k, v => some (.obj (insertKey k v kvs))
  | _, _, _ => none

/-- Object-member removal, as `as_object_mut().unwrap().remove(key)` (the
caller guarantees the receiver is an object). -/
def removeKey : Json → String → Json
  | .obj kvs, k => .obj (kvs.filter (fun kv => kv.1 ≠ k))
  | j, _ => j

/-- Hexadecimal digit characters, lower-case, for control-character escapes. -/
def hexDigit (n : Nat) : Char :=
  if n < 10 then Char.ofNat ('0'.toNat + n)
  else Char.ofNat ('a'.toNat + (n - 10))

/-- Escape one character of a JSON string exactly as `serde_json`'s compact
serializer does: `"` and `\` get a backslash, the five named control escapes
are used where they exist, remaining control characters become `\u00xx`, and
everything else is emitted verbatim. -/
def escapeChar (c : Char) : String :=
  if c = '"' then "\\\""
  else if c = '\\' then "\\\\"
  else if c = '\x08' then "\\b"
  else if c = '\x0c' then "\\f"
  else if c = '\n' then "\\n"
  else if c = '\r' then "\\r"
  else if c = '\t' then "\\t"
  else if c.toNat < 0x20 then
    String.mk ['\\', 'u', '0', '0', hexDigit (c.toNat / 16), hexDigit (c.toNat % 16)]
  else String.mk [c]

/-- Quote and escape a string literal for serialization. -/
def quoteStr (s : String) : String :=
  "\"" ++ String.join (s.data.map escapeChar) ++ "\""

/-- Render an exact rational the way the serializer needs it: integers print
as integers; a terminating decimal prints with a point; the final branch is
unreachable for numbers produced by parsing or by this embedding. -/
def numRepr (q : ℚ) : String :=
  if q.den = 1 then toString q.num
  else
    match (List.range 40).find? (fun k => (q * ((10 : ℚ) ^ (k + 1))).den = 1) with
    | some k =>
      let m := (q * ((10 : ℚ) ^ (k + 1))).num
      let sign := if m < 0 then "-" else ""
      let digits := toString m.natAbs
      let padded := if digits.length < k + 2 then
          String.mk (List.replicate (k + 2 - digits.length) '0') ++ digits
        else digits
      let cut := padded.length - (k + 1)
      sign ++ (padded.take cut) ++ "." ++ (padded.drop cut)
    | none => toString q.num ++ "/" ++ toString q.den

mutual
/-- Compact serialization, as `serde_json::to_string` / `Value`'s `Display`:
no whitespace, object members in stored (sorted) order. -/
def serialize : Json → String
  | .null => "null"
  | .bool true => "true"
  | .bool false => "false"
  | .num q => numRepr q
  | .str s => quoteStr s
  | .arr xs => "[" ++ serializeElems xs ++ "]"
  | .obj kvs => "\x7b" ++ serializeMembers kvs ++ "\x7d"

/-- Comma-join of serialized array elements. -/
def serializeElems : List Json → String
  | [] => ""
  | [x] => serialize x
  | x :: y :: rest => serialize x ++ "," ++ serializeElems (y :: rest)

/-- Comma-join of serialized object members (`"key":value`). -/
def serializeMembers : List (String × Json) → String
  | [] => ""
  | [(k, v)] => quoteStr k ++ ":" ++ serialize v
  | (k, v) :: kv :: rest => quoteStr k ++ ":" ++ serialize v ++ "," ++ serializeMembers (kv :: rest)
end

/-- JSON whitespace, the four characters `serde_json` skips. -/
def isWsChar (c : Char) : Bool :=
  c = ' ' || c = '\t' || c = '\n' || c = '\r'

/-- Drop leading JSON whitespace. -/
def dropWs : List Char → List Char
  | c :: cs => if isWsChar c then dropWs cs else c :: cs
  | [] => []

/-- Decimal digit test (code points 48-57). -/
def isDig (c : Char) : Bool := 48 ≤ c.toNat && c.toNat ≤ 57

/-- Split off a maximal run of decimal digits. -/
def digitSpan : List Char → List Char × List Char
  | c :: cs =>
    if isDig c then
      let (ds, rest) := digitSpan cs
      (c :: ds, rest)
    else ([], c :: cs)
  | [] => ([], [])

/-- Numeric value of a digit run (code point 48 is `0`). -/
def digitsVal (ds : List Char) : Nat :=
  ds.foldl (fun acc c => 10 * acc + (c.toNat - 48)) 0

/-- Value of one hexadecimal digit, if it is one (code-point arithmetic:
`0`-`9` are 48-57, `a`-`f` are 97-102, `A`-`F` are 65-70). -/
def hexDigitVal (c : Char) : Option Nat :=
  let n := c.toNat
  if 48 ≤ n ∧ n ≤ 57 then some (n - 48)
  else if 97 ≤ n ∧ n ≤ 102 then some (n - 87)
  else if 65 ≤ n ∧ n ≤ 70 then some (n - 55)
  else none

/-- Value of a four-hex-digit escape code unit. -/
def hexQuad (a b c d : Char) : Option Nat := do
  let va ← hexDigitVal a
  let vb ← hexDigitVal b
  let vc ← hexDigitVal c
  let vd ← hexDigitVal d
  pure (((va * 16 + vb) * 16 + vc) * 16 + vd)

/-- Body of a JSON string literal after the opening quote, as `serde_json`
reads it: the named escapes, `\uXXXX` (with mandatory surrogate pairing and
lone surrogates rejected), raw control characters below `0x20` rejected. -/
def strBody (acc : List Char) : List Char → Option (String × List Char)
  | '"' :: rest => some (String.mk acc.reverse, rest)
  | '\\' :: 'u' :: a :: b :: c :: d :: rest =>
    match hexQuad a b c d with
    | none => none
    | some n =>
      if n < 0xD800 ∨ 0xDFFF < n then strBody (Char.ofNat n :: acc) rest
      else if n < 0xDC00 then
        match rest with
        | '\\' :: 'u' :: a' :: b' :: c' :: d' :: rest' =>
          match hexQuad a' b' c' d' with
          | none => none
          | some m =>
            if 0xDC00 ≤ m ∧ m ≤ 0xDFFF then
              strBody (Char.ofNat (0x10000 + (n - 0xD800) * 0x400 + (m - 0xDC00)) :: acc) rest'
            else none
        | _ => none
      else none
  | '\\' :: e :: rest =>
    if e = '"' then strBody ('"' :: acc) rest
    else if e = '\\' then strBody ('\\' :: acc) rest
    else if e = '/' then strBody ('/' :: acc) rest
    else if e = 'b' then strBody ('\x08' :: acc) rest
    else if e = 'f' then strBody ('\x0c' :: acc) rest
    else if e = 'n' then strBody ('\n' :: acc) rest
    else if e = 'r' then strBody ('\r' :: acc) rest
    else if e = 't' then strBody ('\t' :: acc) rest
    else none
  | c :: rest => if c.toNat < 0x20 then none else strBody (c :: acc) rest
  | [] => none

/-- A JSON number literal starting at the current character: optional minus,
an integer part with no leading zero, optional fraction and exponent, each
requiring at least one digit.  The value is kept exact (`serde_json` would
round a non-integer or oversized literal through `f64`; no property proved
here evaluates such a literal). -/
def numLit (cs : List Char) : Option (ℚ × List Char) :=
  let (neg, cs1) : Bool × List Char :=
    match cs with
    | '-' :: r => (true, r)
    | _ => (false, cs)
  match cs1 with
  | c :: rest =>
    if ¬ isDig c then none
    else
      let (intDs, cs2) :=
        if c = '0' then ([c], rest)
        else digitSpan (c :: rest)
      let fracStep : Option (List Char × List Char) :=
        match cs2 with
        | '.' :: r =>
          let (ds, r') := digitSpan r
          if ds.isEmpty then none else some (ds, r')
        | _ => some ([], cs2)
      match fracStep with
      | none => none
      | some (fracDs, cs3) =>
        let expStep : Option (Int × List Char) :=
          match cs3 with
          | 'e' :: r | 'E' :: r =>
            let (esgn, r1) : Int × List Char :=
              if r.head? = some '-' then (-1, r.tail)
              else if r.head? = some '+' then (1, r.tail)
              else (1, r)
            let (eds, r2) := digitSpan r1
            if eds.isEmpty then none else some (esgn * (digitsVal eds : Int), r2)
          | _ => some (0, cs3)
        match expStep with
        | none => none
        | some (expv, cs4) =>
          let mant : Int :=
            (if neg then -1 else 1) * (digitsVal (intDs ++ fracDs) : Int)
          let scale : Int := expv - (fracDs.length : Int)
          let q : ℚ :=
            if 0 ≤ scale then (mant : ℚ) * (10 : ℚ) ^ scale.toNat
            else (mant : ℚ) / (10 : ℚ) ^ (-scale).toNat
          some (q, cs4)
  | [] => none

mutual
/-- One JSON value (fuel-indexed for totality; the entry point always supplies
enough fuel).  Mirrors `serde_json::from_str`'s grammar; objects are built by
sorted insertion so duplicate keys resolve last-wins as in `BTreeMap`. -/
def jsonVal : Nat → List Char → Option (Json × List Char)
  | 0, _ => none
  | fuel + 1, cs =>
    match dropWs cs with
    | 'n' :: 'u' :: 'l' :: 'l' :: r => some (.null, r)
    | 't' :: 'r' :: 'u' :: 'e' :: r => some (.bool true, r)
    | 'f' :: 'a' :: 'l' :: 's' :: 'e' :: r => some (.bool false, r)
    | '"' :: r =>
      match strBody [] r with
      | some (s, r') => some (.str s, r')
      | none => none
    | '[' :: r =>
      match dropWs r with
      | ']' :: r' => some (.arr [], r')
      | other => jsonItems fuel other
    | '\x7b' :: r =>
      match dropWs r with
      | '\x7d' :: r' => some (.obj [], r')
      | other => jsonFields fuel other []
    | c :: rest =>
      if c = '-' ∨ isDig c then
        match numLit (c :: rest) with
        | some (q, r') => some (.num q, r')
        | none => none
      else none
    | [] => none

/-- One-or-more comma-separated array elements up to the closing bracket. -/
def jsonItems : Nat → List Char → Option (Json × List Char)
  | 0, _ => none
  | fuel + 1, cs =>
    match jsonVal fuel cs with
    | none => none
    | some (v, r) =>
      match dropWs r with
      | ',' :: r' =>
        match jsonItems fuel r' with
        | some (.arr vs, r'') => some (.arr (v :: vs), r'')
        | _ => none
      | ']' :: r' => some (.arr [v], r')
      | _ => none

/-- One-or-more comma-separated object members up to the closing brace,
inserted into the accumulated sorted member list. -/
def jsonFields : Nat → List Char → List (String × Json) → Option (Json × List Char)
  | 0, _, _ => none
  | fuel + 1, cs, acc =>
    match dropWs cs with
    | '"' :: r =>
      match strBody [] r with
      | none => none
      | some (key, r1) =>
        match dropWs r1 with
        | ':' :: r2 =>
          match jsonVal fuel r2 with
          | none => none
          | some (v, r3) =>
            match dropWs r3 with
            | ',' :: r4 => jsonFields fuel r4 (Json.insertKey key v acc)
            | '\x7d' :: r4 => some (.obj (Json.insertKey key v acc), r4)
            | _ => none
        | _ => none
    | _ => none
end

/-- Parse a complete JSON document, as `serde_json::from_str::<Value>`: one
value, then nothing but whitespace. -/
def parseChars (cs : List Char) : Option Json :=
  match jsonVal (2 * cs.length + 2) cs with
  | some (j, r) => if dropWs r = [] then some j else none
  | none => none

/-- String-level entry point for the parser. -/
def parse (s : String) : Option Json := parseChars s.data

end Json

/-- Value of one character of the standard base64 alphabet. -/
def b64Val (c : Char) : Option Nat :=
  let n := c.toNat
  if 65 ≤ n ∧ n ≤ 90 then some (n - 65)
  else if 97 ≤ n ∧ n ≤ 122 then some (n - 71)
  else if 48 ≤ n ∧ n ≤ 57 then some (n + 4)
  else if n = 43 then some 62
  else if n = 47 then some 63
  else none

/-- Decode base64 four-character groups into bytes, with canonical `=`
padding allowed only in the final group and non-zero trailing bits rejected,
as `base64::prelude::BASE64_STANDARD.decode` does. -/
def b64Groups : List Char → Option (List Nat)
  | [] => some []
  | a :: b :: c :: d :: rest => do
    let va ← b64Val a
    let vb ← b64Val b
    if c = '=' then
      if d = '=' ∧ rest = [] ∧ vb % 16 = 0 then
        pure [va * 4 + vb / 16]
      else none
    else do
      let vc ← b64Val c
      if d = '=' then
        if rest = [] ∧ vc % 4 = 0 then
          pure [va * 4 + vb / 16, (vb % 16) * 16 + vc / 4]
        else none
      else do
        let vd ← b64Val d
        let tl ← b64Groups rest
        pure ([va * 4 + vb / 16, (vb % 16) * 16 + vc / 4, (vc % 4) * 64 + vd] ++ tl)
  | _ => none

/-- Standard base64 decoding of a string into bytes. -/
def base64Decode (s : String) : Option (List Nat) := b64Groups s.data

/-- UTF-8 continuation byte test. -/
def contByte (b : Nat) : Bool := 0x80 ≤ b && b ≤ 0xBF

/-- Admissible second byte of a three-byte UTF-8 sequence headed by `b`
(excludes overlong encodings and surrogate code points). -/
def snd3Ok (b b2 : Nat) : Bool :=
  if b = 0xE0 then 0xA0 ≤ b2 && b2 ≤ 0xBF
  else if b = 0xED then 0x80 ≤ b2 && b2 ≤ 0x9F
  else contByte b2

/-- Admissible second byte of a four-byte UTF-8 sequence headed by `b`
(excludes overlong encodings and code points beyond `0x10FFFF`). -/
def snd4Ok (b b2 : Nat) : Bool :=
  if b = 0xF0 then 0x90 ≤ b2 && b2 ≤ 0xBF
  else if b = 0xF4 then 0x80 ≤ b2 && b2 ≤ 0x8F
  else contByte b2

/-- Strict UTF-8 decoding of a byte list, as `String::from_utf8`: rejects
truncated sequences, overlongs, surrogates, and out-of-range code points. -/
def utf8Decode : List Nat → Option (List Char)
  | [] => some []
  | b :: rest =>
    if b < 0x80 then (utf8Decode rest).map (Char.ofNat b :: ·)
    else if 0xC2 ≤ b ∧ b ≤ 0xDF then
      match rest with
      | b2 :: r =>
        if contByte b2 then
          (utf8Decode r).map (Char.ofNat ((b - 0xC0) * 0x40 + (b2 - 0x80)) :: ·)
        else none
      | _ => none
    else if 0xE0 ≤ b ∧ b ≤ 0xEF then
      match rest with
      | b2 :: b3 :: r =>
        if snd3Ok b b2 && contByte b3 then
          (utf8Decode r).map
            (Char.ofNat ((b - 0xE0) * 0x1000 + (b2 - 0x80) * 0x40 + (b3 - 0x80)) :: ·)
        else none
      | _ => none
    else if 0xF0 ≤ b ∧ b ≤ 0xF4 then
      match rest with
      | b2 :: b3 :: b4 :: r =>
        if snd4Ok b b2 && contByte b3 && contByte b4 then
          (utf8Decode r).map
            (Char.ofNat
              ((b - 0xF0) * 0x40000 + (b2 - 0x80) * 0x1000 + (b3 - 0x80) * 0x40 + (b4 - 0x80)) :: ·)
        else none
      | _ => none
    else none

/-!
Frame extractor (`extract_json_from_bedrock_chunk`, `src/handlers.rs:26-86`).

The Rust loop keeps an absolute scan position; the embedding recurses on the
unscanned suffix instead, which is the same traversal.  `scanBalanced` is the
inner `for (i, c) in char_indices()` loop (depth counter, in-string flag,
escape flag); it returns the candidate length in characters, `none` when the
fragment ends before the braces balance (in which case the Rust loop
`break`s with the current result).
-/

/-- Brace matching from a candidate start: returns how many characters make
up the balanced-brace candidate, tracking in-string and escape state exactly
as the Rust scanner does. -/
def scanBalanced : List Char → Int → Bool → Bool → Option Nat
  | [], _, _, _ => none
  | c :: cs, depth, inStr, esc =>
    if esc then (scanBalanced cs depth inStr false).map (· + 1)
    else if c = '\\' ∧ inStr then (scanBalanced cs depth inStr true).map (· + 1)
    else if c = '"' then (scanBalanced cs depth (!inStr) esc).map (· + 1)
    else if c = '\x7b' ∧ ¬ inStr then (scanBalanced cs (depth + 1) inStr esc).map (· + 1)
    else if c = '\x7d' ∧ ¬ inStr then
      if depth - 1 = 0 then some 1
      else (scanBalanced cs (depth - 1) inStr esc).map (· + 1)
    else (scanBalanced cs depth inStr esc).map (· + 1)

/-- Every successful brace match consumes at least one character. -/
theorem scanBalanced_pos :
    ∀ (cs : List Char) (d : Int) (s e : Bool) (n : Nat),
      scanBalanced cs d s e = some n → 1 ≤ n := by
  intro cs
  induction cs with
  | nil => intro d s e n h; simp [scanBalanced] at h
  | cons c cs ih =>
    intro d s e n h
    simp only [scanBalanced] at h
    repeat' split at h
    all_goals
      first
      | (simp only [Option.map_eq_some'] at h
         obtain ⟨m, _, rfl⟩ := h
         omega)
      | (simp only [Option.some.injEq] at h; omega)

/-- Decode one delimited candidate: parse the outer JSON, read a base64
string from its `bytes` field, decode, validate as UTF-8, and parse the
inner JSON.  `none` at any stage models the fall-through in the Rust code. -/
def decodeFrame (cand : List Char) : Option Json :=
  match Json.parseChars cand with
  | none => none
  | some outer =>
    match (outer.get "bytes").bind Json.asStr with
    | none => none
    | some b64 =>
      match base64Decode b64 with
      | none => none
      | some bytes =>
        match utf8Decode bytes with
        | none => none
        | some inner => Json.parseChars inner

/-- The scan loop of `extract_json_from_bedrock_chunk`, fuel-indexed so the
kernel can evaluate it (each iteration consumes at least one character, so
`length + 1` fuel always suffices — `extractLoopF_congr` below): find the
next `{`, brace-match, try to decode; on decode failure resume after the
matched closing brace, on brace-match failure or no further `{` stop. -/
def extractLoopF : Nat → List Char → Option Json
  | 0, _ => none
  | fuel + 1, cs =>
    match cs.dropWhile (fun c => c ≠ '\x7b') with
    | [] => none
    | t :: ts =>
      match scanBalanced (t :: ts) 0 false false with
      | none => none
      | some len =>
        match decodeFrame ((t :: ts).take len) with
        | some v => some v
        | none => extractLoopF fuel ((t :: ts).drop len)

/-- A successful brace match never claims more characters than exist. -/
theorem scanBalanced_le :
    ∀ (cs : List Char) (d : Int) (s e : Bool) (n : Nat),
      scanBalanced cs d s e = some n → n ≤ cs.length := by
  intro cs
  induction cs with
  | nil => intro d s e n h; simp [scanBalanced] at h
  | cons c cs ih =>
    intro d s e n h
    simp only [scanBalanced] at h
    repeat' split at h
    all_goals
      first
      | (simp only [Option.map_eq_some'] at h
         obtain ⟨m, hm, rfl⟩ := h
         have := ih _ _ _ _ hm
         simp only [List.length_cons]
         omega)
      | (simp only [Option.some.injEq] at h
         simp only [List.length_cons]
         omega)

/-- Fuel irrelevance for the scan loop: any two fuel amounts strictly above
the fragment length compute the same result. -/
theorem extractLoopF_congr :
    ∀ (f₁ f₂ : Nat) (cs : List Char), cs.length < f₁ → cs.length < f₂ →
      extractLoopF f₁ cs = extractLoopF f₂ cs := by
  intro f₁
  induction f₁ with
  | zero => intro f₂ cs h₁ _; omega
  | succ f₁ ih =>
    intro f₂ cs h₁ h₂
    match f₂, h₂ with
    | f₂ + 1, h₂ =>
      simp only [extractLoopF]
      have hlen : (cs.dropWhile (fun c => c ≠ '\x7b')).length ≤ cs.length :=
        (List.dropWhile_suffix _).length_le
      split
      · rfl
      · rename_i t ts htail
        rw [htail] at hlen
        split
        · rfl
        · rename_i len hscan
          split
          · rfl
          · have hpos := scanBalanced_pos (t :: ts) 0 false false len hscan
            apply ih
            · simp only [List.length_drop, List.length_cons] at *
              omega
            · simp only [List.length_drop, List.length_cons] at *
              omega

/-- Entry point of the scan loop, with canonical fuel. -/
def extractLoop (cs : List Char) : Option Json :=
  extractLoopF (cs.length + 1) cs

/-- Frame extractor over one network-read fragment
(`extract_json_from_bedrock_chunk`): at most one decoded backend event. -/
def extract_json_from_bedrock_chunk (s : String) : Option Json :=
  extractLoop s.data

/-!
Request normalizer and schema mappers (`src/transform.rs`).
-/

/-- Normalizer for the legacy raw-invoke payload (`transform_payload`,
`src/transform.rs:95-115`).  `none` models a panic: the only panicking
operation is the unguarded `payload["anthropic_version"] = ...`, whose
`IndexMut` panics when the payload is neither an object nor `null`. -/
def transform_payload (payload : Json) : Option Json :=
  let p1 :=
    match (payload.get "prompt").bind Json.asStr with
    | some prompt =>
      Json.mkObj
        [("messages",
          Json.arr [Json.mkObj [("role", Json.str "user"), ("content", Json.str prompt)]]),
         ("max_tokens", (payload.get "max_tokens_to_sample").getD (Json.num 200))]
    | none => payload
  let p2 : Option Json :=
    if (p1.get "max_tokens_to_sample").isSome ∧ (p1.get "max_tokens").isNone then
      match p1.get "max_tokens_to_sample" with
      | some mts =>
        (p1.setKey "max_tokens" mts).map (fun p => p.removeKey "max_tokens_to_sample")
      | none => some p1
    else some p1
  p2.bind (fun p => p.setKey "anthropic_version" (Json.str "bedrock-2023-05-31"))

/-- The `function` member of a client-protocol tool call (typed form). -/
structure FunctionCall where
  name : String
  arguments : String
deriving DecidableEq, Inhabited

/-- A client-protocol tool call (typed form); `type` is always `"function"`. -/
structure ToolCall where
  id : String
  type : String
  function : FunctionCall
deriving DecidableEq, Inhabited

/-- A client-protocol chat message (`OpenAIMessage`): `content` is free-form
JSON (string, block list, or embedded tool-call object). -/
structure OpenAIMessage where
  role : String
  content : Option Json
  tool_calls : Option (List ToolCall)
  tool_call_id : Option String
deriving DecidableEq, Inhabited

/-- A client-protocol chat request (`OpenAIRequest`).  `temperature` is an
`f32` in the source; the exact-rational model is adequate because no proved
property evaluates float rounding.  `tools` and `tool_choice` are dead
fields in the source and carried here only for shape fidelity. -/
structure OpenAIRequest where
  messages : List OpenAIMessage
  model : Option String
  max_tokens : Option Nat
  temperature : Option ℚ
  stream : Option Bool
  tools : Option Json
  tool_choice : Option Json

/-- Coercion of a system message's content to text: strings pass through,
anything else is serialized (`Value`'s `Display`/`to_string`). -/
def systemText : Json → String
  | Json.str s => s
  | c => Json.serialize c

/-- The system prompts collected by the outbound mapper, in message order:
the content of every `system` message that has one, coerced to text. -/
def systemPrompts (msgs : List OpenAIMessage) : List String :=
  msgs.filterMap (fun m =>
    if m.role = "system" then m.content.map systemText else none)

/-- One backend `tool_use` block from one raw tool-call object, as the inner
closure of `openai_to_bedrock` builds it: `id` and `name` fall back to fixed
placeholders when missing or non-string, and `input` is the raw
`function.arguments` value copied verbatim (`json!({})` when absent). -/
def toolUseBlock (tc : Json) : Json :=
  let func := (tc.get "function").getD (Json.mkObj [])
  Json.mkObj
    [("type", Json.str "tool_use"),
     ("id", Json.str (((tc.get "id").bind Json.asStr).getD "tool_call_1")),
     ("name", Json.str (((func.get "name").bind Json.asStr).getD "unknown_tool")),
     ("input", (func.get "arguments").getD (Json.mkObj []))]

/-- Per-message body of the `filter_map` in `openai_to_bedrock`: `system`
messages are dropped (collected separately by `systemPrompts`), assistant
messages with an object content holding a `tool_calls` key become `tool_use`
sequences, `tool` messages become `user` messages with one `tool_result`
block, and everything else passes through with content defaulted to `""`. -/
def mapMessage (m : OpenAIMessage) : Option Json :=
  if m.role = "system" then none
  else if m.role = "assistant" then
    match m.content with
    | some (Json.obj map) =>
      match (Json.obj map).get "tool_calls" with
      | some tcv =>
        let tcs := (Json.asArr tcv).getD []
        some (Json.mkObj
          [("role", Json.str "assistant"),
           ("content", Json.arr (tcs.map toolUseBlock))])
      | none =>
        some (Json.mkObj
          [("role", Json.str "assistant"),
           ("content", m.content.getD (Json.str ""))])
    | _ =>
      some (Json.mkObj
        [("role", Json.str "assistant"),
         ("content", m.content.getD (Json.str ""))])
  else if m.role = "tool" then
    some (Json.mkObj
      [("role", Json.str "user"),
       ("content", Json.arr
         [Json.mkObj
           [("type", Json.str "tool_result"),
            ("tool_use_id", Json.str (m.tool_call_id.getD "tool_call_1")),
            ("content", m.content.getD (Json.str ""))]])])
  else
    some (Json.mkObj
      [("role", Json.str m.role),
       ("content", m.content.getD (Json.str ""))])

/-- Outbound schema mapper (`openai_to_bedrock`, `src/transform.rs:120-209`):
client chat request to backend payload. -/
def openai_to_bedrock (req : OpenAIRequest) : Json :=
  let messages := req.messages.filterMap mapMessage
  let sys := systemPrompts req.messages
  let base := Json.mkObj
    [("anthropic_version", Json.str "bedrock-2023-05-31"),
     ("messages", Json.arr messages),
     ("max_tokens", Json.num (req.max_tokens.getD 512)),
     ("temperature", Json.num (req.temperature.getD (7 / 10)))]
  if sys.isEmpty then base
  else (base.setKey "system" (Json.str (String.intercalate "\n\n" sys))).getD base

/-- Deterministic content of one non-streaming client response: everything
`bedrock_to_openai` computes except the freshly generated response id, the
current timestamp, and the echoed model string. -/
structure ChatReplyCore where
  message : OpenAIMessage
  finish_reason : String
  prompt_tokens : Int
  completion_tokens : Int
  total_tokens : Int
deriving DecidableEq

/-- One step of the content-block walk in `bedrock_to_openai`: a `text`
block overwrites the message content, a well-formed `tool_use` block appends
a ToolCall (re-serializing its structured `input` to a JSON string) and
forces `finish_reason = "tool_calls"`; anything else is ignored. -/
def blockStep (st : Option String × List ToolCall × String) (block : Json) :
    Option String × List ToolCall × String :=
  let (mc, tcs, fr) := st
  match (block.get "type").bind Json.asStr with
  | some "text" =>
    match (block.get "text").bind Json.asStr with
    | some t => (some t, tcs, fr)
    | none => st
  | some "tool_use" =>
    match (block.get "id").bind Json.asStr, (block.get "name").bind Json.asStr,
        block.get "input" with
    | some i, some n, some input =>
      (mc, tcs ++ [⟨i, "function", ⟨n, Json.serialize input⟩⟩], "tool_calls")
    | _, _, _ => st
  | _ => st

/-- Inbound schema mapper, non-streaming (`bedrock_to_openai`,
`src/transform.rs:214-298`), deterministic core.  Usage counts are modelled
as unbounded integers; the source's `as i32` wrap is irrelevant to every
property proved here. -/
def bedrock_to_openai (resp : Json) : ChatReplyCore :=
  let blocks := ((resp.get "content").bind Json.asArr).getD []
  let (mc, tcs, fr) := blocks.foldl blockStep (none, [], "stop")
  let pt := (((resp.get "usage").bind (fun u => u.get "input_tokens")).bind Json.asInt).getD 0
  let ct := (((resp.get "usage").bind (fun u => u.get "output_tokens")).bind Json.asInt).getD 0
  { message :=
      { role := "assistant", content := mc.map Json.str,
        tool_calls := if tcs = [] then none else some tcs, tool_call_id := none },
    finish_reason := fr,
    prompt_tokens := pt, completion_tokens := ct, total_tokens := pt + ct }

/-- Deterministic content of one streaming client chunk: the delta object
and optional finish reason (the source adds a fresh id, a timestamp, a fixed
model string, and index 0 around these). -/
structure StreamChunkCore where
  delta : Json
  finish_reason : Option String
deriving DecidableEq

/-- Inbound schema mapper, streaming (`bedrock_chunk_to_openai`,
`src/transform.rs:303-341`), deterministic core: `message_start` carries an
assistant role delta, `content_block_delta` carries a text fragment,
`message_stop` carries an empty delta with finish reason `"stop"`, anything
else (or an empty delta with no finish reason) yields no chunk. -/
def bedrock_chunk_to_openai (chunk : Json) : Option StreamChunkCore :=
  let tagged : List (String × Json) × Option String :=
    match (chunk.get "type").bind Json.asStr with
    | some "message_start" => ([("role", Json.str "assistant")], none)
    | some "content_block_delta" =>
      match ((chunk.get "delta").bind (fun d => d.get "text")).bind Json.asStr with
      | some t => ([("content", Json.str t)], none)
      | none => ([], none)
    | some "message_stop" => ([], some "stop")
    | _ => ([], none)
  let (delta, fr) := tagged
  if delta = [] ∧ fr = none then none
  else some { delta := Json.obj delta, finish_reason := fr }

/-!
Streaming relay orchestration (`invoke_stream_handler`,
`src/handlers.rs:157-246`, and `openai_chat_completions_stream_handler`,
`src/handlers.rs:358-458`).

Both handlers are `async_stream` loops over one backend call; their emitted
SSE data events are modelled as a pure function of the backend's observable
outcome.  `BackendOutcome.streamOk frags readErr` records the fragments read
successfully before the stream either ended (`readErr = none`) or failed
(`readErr = some e`, after which the loop `break`s).  SSE data payloads are
distinguished by constructor: a serialized chunk (JSON text), a plain error
text, or the literal `[DONE]` marker — distinct strings on the wire.
-/

/-- Observable outcome of one signed streaming backend call. -/
inductive BackendOutcome where
  | transportErr (msg : String)
  | badStatus (status : Nat) (body : Option String)
  | streamOk (frags : List String) (readErr : Option String)

/-- One SSE data event as either handler emits it. -/
inductive SseItem where
  | chunkItem (c : StreamChunkCore)
  | textItem (s : String)
  | doneItem
deriving DecidableEq

/-- Chunk produced from one raw fragment: frame extraction followed by the
streaming inbound mapper. -/
def fragmentChunk (frag : String) : Option StreamChunkCore :=
  (extract_json_from_bedrock_chunk frag).bind bedrock_chunk_to_openai

/-- All chunks forwarded for a list of fragments, in read order. -/
def forwardedChunks (frags : List String) : List SseItem :=
  frags.filterMap (fun f => (fragmentChunk f).map SseItem.chunkItem)

/-- The placeholder chunk the chat-completions handler synthesizes when no
chunk was forwarded: empty content delta, no finish reason. -/
def placeholderChunk : SseItem :=
  SseItem.chunkItem { delta := Json.mkObj [("content", Json.str "")], finish_reason := none }

/-- SSE data events of `openai_chat_completions_stream_handler` after the
signed call is issued: error text plus `[DONE]` on transport failure and on
non-2xx status (body defaulted to `""` if unreadable), otherwise forwarded
chunks, an error text on a mid-stream read failure, the placeholder when
nothing was forwarded, and a final `[DONE]`. -/
def openai_chat_stream_events (o : BackendOutcome) : List SseItem :=
  match o with
  | .transportErr e => [.textItem ("Request error: " ++ e), .doneItem]
  | .badStatus st body =>
    [.textItem ("Error " ++ toString st ++ ": " ++ body.getD ""), .doneItem]
  | .streamOk frags readErr =>
    let cs := forwardedChunks frags
    cs
      ++ (match readErr with
          | some e => [.textItem ("Stream error: " ++ e)]
          | none => [])
      ++ (if cs.isEmpty then [placeholderChunk] else [])
      ++ [.doneItem]

/-- SSE data events of the legacy `invoke_stream_handler` after the signed
call is issued: on non-2xx the error text is emitted only when the body is
readable and the generator returns with no `[DONE]`; on transport failure
only the error text is emitted; only the fragment-loop path appends
`[DONE]` (and it synthesizes no placeholder). -/
def invoke_stream_events (o : BackendOutcome) : List SseItem :=
  match o with
  | .transportErr e => [.textItem ("Request error: " ++ e)]
  | .badStatus st body =>
    match body with
    | some t => [.textItem ("Error " ++ toString st ++ ": " ++ t)]
    | none => []
  | .streamOk frags readErr =>
    forwardedChunks frags
      ++ (match readErr with
          | some e => [.textItem ("Stream error: " ++ e)]
          | none => [])
      ++ [.doneItem]

/-!
Shared concrete data for witnesses and counterexamples.
-/

/-- A complete well-formed envelope whose payload is the base64 encoding of
the event `{"type":"message_start"}`. -/
def envStart : String := "\x7b\"bytes\":\"eyJ0eXBlIjoibWVzc2FnZV9zdGFydCJ9\"\x7d"

/-- A complete well-formed envelope whose payload is the base64 encoding of
the event `{"type":"message_stop"}` (the example of the specification). -/
def envStop : String := "\x7b\"bytes\":\"eyJ0eXBlIjoibWVzc2FnZV9zdG9wIn0=\"\x7d"

/-- The decoded `message_start` backend event. -/
def evStart : Json := Json.obj [("type", Json.str "message_start")]

/-- The decoded `message_stop` backend event. -/
def evStop : Json := Json.obj [("type", Json.str "message_stop")]

/-!
Claim theorems.
-/

/-- C1, counterexample.  A fragment holding two complete well-formed
envelopes — each of which the decode pipeline accepts on its own — makes the
extractor return only the first decoded event: the scan returns at the first
success instead of resuming after the matched closing brace, so the second
envelope's event (a different object) is never yielded, contradicting the
claimed one-event-per-envelope output. -/
theorem C1_first_envelope_only :
    decodeFrame envStart.data = some evStart
    ∧ decodeFrame envStop.data = some evStop
    ∧ extract_json_from_bedrock_chunk (envStart ++ envStop) = some evStart
    ∧ evStart ≠ evStop := by decide

/-- C1, amended.  The Frame Extractor yields at most one decoded backend
event per fragment: whenever the first `{`-candidate brace-matches and every
decode stage succeeds on it, the extractor returns that inner event
immediately (scanning past the closing brace happens only for candidates
that fail a decode stage — see the C8 theorem). -/
theorem C1_extracts_first_success (s : String) (t : Char) (ts : List Char)
    (len : Nat) (v : Json)
    (htail : s.data.dropWhile (fun c => c ≠ '\x7b') = t :: ts)
    (hscan : scanBalanced (t :: ts) 0 false false = some len)
    (hdec : decodeFrame ((t :: ts).take len) = some v) :
    extract_json_from_bedrock_chunk s = some v := by
  show extractLoopF (s.data.length + 1) s.data = some v
  simp only [ne_eq, decide_not] at htail
  simp [extractLoopF, htail, hscan, hdec]

/-- C1, witness for the amended theorem at the specification's own example
envelope. -/
theorem C1_extracts_first_success_witness :
    extract_json_from_bedrock_chunk envStop = some evStop :=
  C1_extracts_first_success envStop '\x7b' envStop.data.tail envStop.data.length evStop
    (by decide) (by decide) (by decide)

/-- C3, counterexample.  The Request Normalizer is not total on arbitrary
JSON: for an array, a string, or a number payload the unguarded
`payload["anthropic_version"] = ...` panics (modelled by `none`), so the
stage does fail on non-object input. -/
theorem C3_panics_on_non_object :
    transform_payload (Json.arr []) = none
    ∧ transform_payload (Json.str "hi") = none
    ∧ transform_payload (Json.num 1) = none := by decide

/-- C3, amended.  The Request Normalizer never fails on any JSON object (or
`null`) input: absent or malformed fields fall back to defaults.  (Panics
are confined to non-object, non-null payloads, as the counterexample
shows.) -/
theorem C3_total_on_objects (p : Json)
    (h : (∃ kvs, p = Json.obj kvs) ∨ p = Json.null) :
    (transform_payload p).isSome := by
  rcases h with ⟨kvs, rfl⟩ | rfl
  · unfold transform_payload
    rcases hpr : ((Json.obj kvs).get "prompt").bind Json.asStr with _ | prompt
    · dsimp only
      split
      · rename_i hc
        rcases hmts : (Json.obj kvs).get "max_tokens_to_sample" with _ | mts
        · rw [hmts] at hc; simp at hc
        · simp [Json.setKey, Json.removeKey]
      · simp [Json.setKey]
    · rfl
  · decide

/-- C3, witness for the amended theorem at the empty-object payload. -/
theorem C3_total_on_objects_witness :
    (transform_payload (Json.obj [])).isSome :=
  C3_total_on_objects (Json.obj []) (Or.inl ⟨[], rfl⟩)

/-- C5.  For every JSON payload with a string `prompt` field and no
`messages` field, the normalized output is exactly the three-field object:
a single-element `messages` array with role `user` and the prompt as
content, `max_tokens` equal to the payload's `max_tokens_to_sample` value
(or `200` when absent), and the fixed `anthropic_version` tag — no other
field of the original request is carried over.  (Member order in the model
is `BTreeMap` key order, as in `serde_json`.) -/
theorem C5_prompt_rewrite (payload : Json) (p : String)
    (hp : payload.get "prompt" = some (Json.str p))
    (hm : payload.get "messages" = none) :
    transform_payload payload =
      some (Json.obj
        [("anthropic_version", Json.str "bedrock-2023-05-31"),
         ("max_tokens", (payload.get "max_tokens_to_sample").getD (Json.num 200)),
         ("messages",
          Json.arr [Json.obj [("content", Json.str p), ("role", Json.str "user")]])]) := by
  unfold transform_payload
  rw [hp]
  rfl

/-- Forwarded chunks are never the terminal marker. -/
theorem count_done_forwardedChunks (frags : List String) :
    (forwardedChunks frags).count SseItem.doneItem = 0 := by
  rw [List.count_eq_zero]
  intro hmem
  rcases List.mem_filterMap.mp hmem with ⟨f, _, hf⟩
  rcases Option.map_eq_some'.mp hf with ⟨c, _, hc⟩
  exact absurd hc (by simp)

/-- C4, counterexample.  The legacy raw-invoke streaming handler, on a
non-2xx backend status, emits the error chunk and returns without any
`[DONE]` marker, although its signed backend call was attempted — the
claimed exactly-once terminal marker fails on this handler and path. -/
theorem C4_invoke_bad_status_no_done :
    invoke_stream_events (BackendOutcome.badStatus 403 (some "Forbidden")) =
      [SseItem.textItem "Error 403: Forbidden"]
    ∧ (invoke_stream_events (BackendOutcome.badStatus 403 (some "Forbidden"))).count
        SseItem.doneItem = 0 := by
  constructor
  · rfl
  · decide

/-- C4, amended.  The chat-completions streaming handler emits the `[DONE]`
marker exactly once and as its last data event on every post-signing path
(transport failure, non-2xx status, mid-stream read error, and normal
completion); the legacy raw-invoke streaming handler guarantees this only on
the paths that enter its fragment-read loop (normal completion and
mid-stream read error), not on non-2xx status or transport failure. -/
theorem C4_done_exactly_once :
    (∀ o : BackendOutcome,
      (openai_chat_stream_events o).count SseItem.doneItem = 1
      ∧ (openai_chat_stream_events o).getLast? = some SseItem.doneItem)
    ∧ (∀ (frags : List String) (readErr : Option String),
      (invoke_stream_events (BackendOutcome.streamOk frags readErr)).count SseItem.doneItem = 1
      ∧ (invoke_stream_events (BackendOutcome.streamOk frags readErr)).getLast?
          = some SseItem.doneItem) := by
  constructor
  · intro o
    cases o with
    | transportErr e => constructor <;> simp [openai_chat_stream_events, List.count_cons]
    | badStatus st body =>
      constructor <;> simp [openai_chat_stream_events, List.count_cons]
    | streamOk frags readErr =>
      constructor
      · cases readErr <;>
          simp [openai_chat_stream_events, List.count_append, List.count_cons,
            count_done_forwardedChunks] <;>
          split <;> simp [placeholderChunk, List.count_cons]
      · simp only [openai_chat_stream_events, ← List.append_assoc]
        rw [List.getLast?_concat]
  · intro frags readErr
    constructor
    · simp [invoke_stream_events, List.count_append, List.count_cons,
        count_done_forwardedChunks]
      cases readErr <;> simp [List.count_cons]
    · simp only [invoke_stream_events, ← List.append_assoc]
      rw [List.getLast?_concat]

/-- C7.  For a streaming chat-completions request whose backend call
succeeds but whose stream produces no forwarded chunk (every fragment fails
extraction or mapping), the handler synthesizes exactly one placeholder
chunk — whose delta is the empty-content object — immediately before the
terminal `[DONE]`, so the call still yields at least one data event. -/
theorem C7_placeholder_when_empty (frags : List String) (readErr : Option String)
    (h : ∀ f ∈ frags, fragmentChunk f = none) :
    openai_chat_stream_events (BackendOutcome.streamOk frags readErr) =
      (match readErr with
       | some e => [SseItem.textItem ("Stream error: " ++ e)]
       | none => []) ++ [placeholderChunk, SseItem.doneItem] := by
  have hc : forwardedChunks frags = [] := by
    rw [forwardedChunks, List.filterMap_eq_nil_iff]
    intro f hf
    rw [h f hf]
    rfl
  cases readErr <;> simp [openai_chat_stream_events, hc]

/-- C7, witness at the empty backend stream. -/
theorem C7_placeholder_when_empty_witness :
    openai_chat_stream_events (BackendOutcome.streamOk [] none) =
      [placeholderChunk, SseItem.doneItem] := by
  have h := C7_placeholder_when_empty [] none (by simp)
  simpa using h

/-- C9.  The specification's example envelope (base64 of
`{"type":"message_stop"}`) extracts to exactly one backend event, and that
event maps to exactly one client chunk with an empty delta object and
finish reason `"stop"`; in general every event typed `message_stop` maps to
that chunk, while an event with any other type tag (or a
`content_block_delta` without a string text delta, or a missing or
non-string tag) produces no chunk. -/
theorem C9_message_stop_chunk :
    (extract_json_from_bedrock_chunk envStop = some evStop
      ∧ fragmentChunk envStop = some { delta := Json.obj [], finish_reason := some "stop" })
    ∧ (∀ ev : Json, ev.get "type" = some (Json.str "message_stop") →
        bedrock_chunk_to_openai ev = some { delta := Json.obj [], finish_reason := some "stop" })
    ∧ (∀ (ev : Json) (t : String), ev.get "type" = some (Json.str t) →
        t ≠ "message_start" → t ≠ "content_block_delta" → t ≠ "message_stop" →
        bedrock_chunk_to_openai ev = none)
    ∧ (∀ ev : Json, (ev.get "type").bind Json.asStr = none →
        bedrock_chunk_to_openai ev = none)
    ∧ (∀ ev : Json, ev.get "type" = some (Json.str "content_block_delta") →
        ((ev.get "delta").bind (fun d => d.get "text")).bind Json.asStr = none →
        bedrock_chunk_to_openai ev = none) := by
  refine ⟨⟨by decide, by decide⟩, ?_, ?_, ?_, ?_⟩
  · intro ev h
    simp [bedrock_chunk_to_openai, h, Json.asStr]
  · intro ev t h h1 h2 h3
    simp [bedrock_chunk_to_openai, h, Json.asStr, h1, h2, h3]
  · intro ev h
    simp [bedrock_chunk_to_openai, h]
  · intro ev h hd
    have ha : Json.asStr (Json.str "content_block_delta") = some "content_block_delta" := rfl
    simp [bedrock_chunk_to_openai, h, ha, hd]

/-- C9, witness: the general parts applied at an unknown-tag event and at a
`message_stop` event carrying extra members. -/
theorem C9_message_stop_chunk_witness :
    bedrock_chunk_to_openai (Json.obj [("type", Json.str "ping")]) = none
    ∧ bedrock_chunk_to_openai (Json.obj [("index", Json.num 0), ("type", Json.str "message_stop")]) =
        some { delta := Json.obj [], finish_reason := some "stop" } :=
  ⟨C9_message_stop_chunk.2.2.1 _ "ping" (by decide) (by decide) (by decide) (by decide),
   C9_message_stop_chunk.2.1 _ (by decide)⟩

/-- Forgetting the typed top-level `tool_calls` field of a message. -/
def eraseTopToolCalls (m : OpenAIMessage) : OpenAIMessage :=
  { m with tool_calls := none }

/-- C10.  The outbound mapper ignores the top-level `tool_calls` field
entirely: erasing it from every message leaves the backend payload
unchanged, and an assistant message whose content is a string (or absent)
maps to a plain assistant message with the content copied verbatim (or
`""`), with no `tool_use` blocks, whatever its top-level `tool_calls`
holds. -/
theorem C10_top_level_tool_calls_ignored :
    (∀ req : OpenAIRequest,
      openai_to_bedrock { req with messages := req.messages.map eraseTopToolCalls }
        = openai_to_bedrock req)
    ∧ (∀ (m : OpenAIMessage) (s : String), m.role = "assistant" →
        m.content = some (Json.str s) →
        mapMessage m = some (Json.obj [("content", Json.str s), ("role", Json.str "assistant")]))
    ∧ (∀ m : OpenAIMessage, m.role = "assistant" → m.content = none →
        mapMessage m = some (Json.obj [("content", Json.str ""), ("role", Json.str "assistant")])) := by
  refine ⟨?_, ?_, ?_⟩
  · intro req
    have hmap : ∀ m, mapMessage (eraseTopToolCalls m) = mapMessage m := fun m => rfl
    have hsys : systemPrompts (req.messages.map eraseTopToolCalls) = systemPrompts req.messages := by
      simp [systemPrompts, List.filterMap_map]
      rfl
    simp [openai_to_bedrock, List.filterMap_map, hsys]
    rfl
  · rintro ⟨role, content, tcs, tcid⟩ s hrole hcontent
    simp only at hrole hcontent
    subst hrole hcontent
    rfl
  · rintro ⟨role, content, tcs, tcid⟩ hrole hcontent
    simp only at hrole hcontent
    subst hrole hcontent
    rfl

/-- C10, witness: a concrete assistant message with a populated top-level
`tool_calls` field and string content maps to the plain assistant message. -/
theorem C10_top_level_tool_calls_ignored_witness :
    mapMessage
      { role := "assistant", content := some (Json.str "hello"),
        tool_calls := some [⟨"call_1", "function", ⟨"f", "\x7b\x7d"⟩⟩],
        tool_call_id := none } =
      some (Json.obj [("content", Json.str "hello"), ("role", Json.str "assistant")]) :=
  C10_top_level_tool_calls_ignored.2.1 _ "hello" rfl rfl

/-- Effective id of a raw tool-call object under the outbound mapper (the
`"tool_call_1"` placeholder when missing or non-string). -/
def tcId (tc : Json) : String := ((tc.get "id").bind Json.asStr).getD "tool_call_1"

/-- Effective function name of a raw tool-call object under the outbound
mapper (the `"unknown_tool"` placeholder when missing or non-string). -/
def tcName (tc : Json) : String :=
  ((((tc.get "function").getD (Json.mkObj [])).get "name").bind Json.asStr).getD "unknown_tool"

/-- Effective arguments value of a raw tool-call object under the outbound
mapper: the raw `function.arguments` value, `{}` when absent. -/
def tcArgs (tc : Json) : Json :=
  (((tc.get "function").getD (Json.mkObj [])).get "arguments").getD (Json.mkObj [])

/-- An assistant message embedding raw tool calls the way the outbound
mapper recognizes them: a `tool_calls` key inside an object-valued content. -/
def assistantToolMsg (tcs : List Json) : OpenAIMessage :=
  { role := "assistant", content := some (Json.mkObj [("tool_calls", Json.arr tcs)]),
    tool_calls := none, tool_call_id := none }

/-- The ToolCall the inbound mapper reconstructs from the `tool_use` block
of one raw tool call. -/
def roundTrippedTC (tc : Json) : ToolCall :=
  ⟨tcId tc, "function", ⟨tcName tc, Json.serialize (tcArgs tc)⟩⟩

/-- Outbound `tool_use` blocks are in exactly the shape the inbound
content-block walk consumes: each appends its reconstructed ToolCall and
forces the `tool_calls` finish reason. -/
theorem blockStep_toolUseBlock (tc : Json) (mc : Option String) (acc : List ToolCall)
    (fr : String) :
    blockStep (mc, acc, fr) (toolUseBlock tc) = (mc, acc ++ [roundTrippedTC tc], "tool_calls") :=
  rfl

/-- The content-block walk over a whole list of outbound `tool_use` blocks. -/
theorem foldl_toolUseBlocks (tcs : List Json) :
    ∀ (mc : Option String) (acc : List ToolCall) (fr : String),
      (tcs.map toolUseBlock).foldl blockStep (mc, acc, fr) =
        (mc, acc ++ tcs.map roundTrippedTC, if tcs.isEmpty then fr else "tool_calls") := by
  induction tcs with
  | nil => intro mc acc fr; simp
  | cons tc tcs ih =>
    intro mc acc fr
    simp only [List.map_cons, List.foldl_cons, blockStep_toolUseBlock, ih, List.isEmpty_cons]
    simp

/-- C2, counterexample.  With one tool call whose `function.arguments` is
the JSON string `"{}"`, the outbound mapper copies the string verbatim as
the `tool_use` input — it does not parse it (parsing would give the empty
object) — and the round trip returns the arguments string `"\"{}\""`, which
deserializes to a JSON string, not to the empty object the original
arguments denote: the reconstructed arguments are not semantically equal to
the original structured arguments. -/
theorem C2_string_arguments_not_parsed :
    (toolUseBlock
        (Json.mkObj [("id", Json.str "call_1"),
          ("function", Json.mkObj [("name", Json.str "f"), ("arguments", Json.str "\x7b\x7d")])])).get
        "input" = some (Json.str "\x7b\x7d")
    ∧ mapMessage (assistantToolMsg
        [Json.mkObj [("id", Json.str "call_1"),
          ("function", Json.mkObj [("name", Json.str "f"), ("arguments", Json.str "\x7b\x7d")])]]) =
      some (Json.obj
        [("content", Json.arr
          [Json.obj [("id", Json.str "call_1"), ("input", Json.str "\x7b\x7d"),
            ("name", Json.str "f"), ("type", Json.str "tool_use")]]),
         ("role", Json.str "assistant")])
    ∧ (bedrock_to_openai (Json.mkObj [("content", Json.arr
        [Json.obj [("id", Json.str "call_1"), ("input", Json.str "\x7b\x7d"),
          ("name", Json.str "f"), ("type", Json.str "tool_use")]])])).message.tool_calls =
      some [⟨"call_1", "function", ⟨"f", "\"\x7b\x7d\""⟩⟩]
    ∧ Json.parse "\"\x7b\x7d\"" = some (Json.str "\x7b\x7d")
    ∧ Json.parse "\x7b\x7d" = some (Json.obj [])
    ∧ Json.str "\x7b\x7d" ≠ Json.obj [] := by decide

/-- C2, amended.  The outbound mapper copies `function.arguments` verbatim
into the `tool_use` input (the empty-object fallback applies only when the
key is absent); with that reading the round trip holds: an assistant
message carrying N raw tool calls maps to N `tool_use` blocks, and a
backend response carrying those N blocks maps back to N ToolCall entries
whose id and name equal the originals whenever present (placeholders
otherwise) and whose arguments string is the JSON serialization of the
original arguments value. -/
theorem C2_roundtrip :
    (∀ tcs : List Json, mapMessage (assistantToolMsg tcs) =
      some (Json.obj [("content", Json.arr (tcs.map toolUseBlock)), ("role", Json.str "assistant")]))
    ∧ (∀ tcs : List Json, tcs ≠ [] →
      (bedrock_to_openai (Json.mkObj [("content", Json.arr (tcs.map toolUseBlock))])).message.tool_calls
        = some (tcs.map roundTrippedTC))
    ∧ (∀ (tc : Json) (i : String), tc.get "id" = some (Json.str i) → tcId tc = i)
    ∧ (∀ (tc f : Json) (n : String), tc.get "function" = some f →
        f.get "name" = some (Json.str n) → tcName tc = n)
    ∧ (∀ (tc f a : Json), tc.get "function" = some f →
        f.get "arguments" = some a → tcArgs tc = a) := by
  refine ⟨fun tcs => rfl, ?_, ?_, ?_, ?_⟩
  · intro tcs hne
    have hblocks : (((Json.mkObj [("content", Json.arr (tcs.map toolUseBlock))]).get
        "content").bind Json.asArr).getD [] = tcs.map toolUseBlock := rfl
    simp only [bedrock_to_openai, hblocks, foldl_toolUseBlocks, List.nil_append]
    simp [List.isEmpty_iff, hne, List.map_eq_nil_iff]
  · intro tc i h
    simp [tcId, h, Json.asStr]
  · intro tc f n hf h
    simp [tcName, hf, h, Json.asStr]
  · intro tc f a hf h
    simp [tcArgs, hf, h]

/-- C2, witness for the amended round trip at one concrete tool call with
structured (object) arguments. -/
theorem C2_roundtrip_witness :
    (bedrock_to_openai (Json.mkObj [("content", Json.arr
        ([Json.mkObj [("id", Json.str "call_9"),
          ("function", Json.mkObj [("name", Json.str "get_weather"),
            ("arguments", Json.mkObj [("city", Json.str "Paris")])])]].map toolUseBlock))])).message.tool_calls
      = some [⟨"call_9", "function", ⟨"get_weather", "\x7b\"city\":\"Paris\"\x7d"⟩⟩] := by
  rw [C2_roundtrip.2.1 _ (by decide)]
  decide

/-- Looking up `role` in a two-member role/content object built by the
outbound mapper. -/
theorem get_role_pair (r : String) (c : Json) :
    (Json.mkObj [("role", Json.str r), ("content", c)]).get "role" = some (Json.str r) := rfl

/-- Every message the outbound mapper keeps carries a non-`system` role. -/
theorem mapMessage_role (m : OpenAIMessage) (v : Json) (h : mapMessage m = some v) :
    v.get "role" ≠ some (Json.str "system") := by
  unfold mapMessage at h
  split_ifs at h with h1 h2 h3
  · split at h
    · split at h
      · dsimp only at h
        injection h with hv
        subst hv
        rw [get_role_pair]
        simp
      · injection h with hv
        subst hv
        rw [get_role_pair]
        simp
    · injection h with hv
      subst hv
      rw [get_role_pair]
      simp
  · injection h with hv
    subst hv
    rw [get_role_pair]
    simp
  · injection h with hv
    subst hv
    rw [get_role_pair]
    simp [h1]

/-- C6.  The outbound mapper's backend `messages` array contains no
`system`-role entry; its `system` field is the blank-line join of the
collected system contents (strings verbatim, structured content serialized),
in original message order, and is omitted exactly when no system content was
collected. -/
theorem C6_system_messages_merged (req : OpenAIRequest) :
    (∃ out : List Json,
      (openai_to_bedrock req).get "messages" = some (Json.arr out)
      ∧ ∀ v ∈ out, v.get "role" ≠ some (Json.str "system"))
    ∧ (openai_to_bedrock req).get "system" =
        (if systemPrompts req.messages = [] then none
         else some (Json.str (String.intercalate "\n\n" (systemPrompts req.messages)))) := by
  constructor
  · refine ⟨req.messages.filterMap mapMessage, ?_, ?_⟩
    · simp only [openai_to_bedrock]
      split
      · rfl
      · rfl
    · intro v hv
      rcases List.mem_filterMap.mp hv with ⟨m, _, hm⟩
      exact mapMessage_role m v hm
  · simp only [openai_to_bedrock]
    split
    · rename_i hs
      rw [if_pos (List.isEmpty_iff.mp hs)]
      rfl
    · rename_i hs
      rw [if_neg (by simpa [List.isEmpty_iff] using hs)]
      rfl

/-- C6, witness: a concrete request interleaving two system messages (one
with structured content) among other roles. -/
theorem C6_system_messages_merged_witness :
    (openai_to_bedrock
      { messages :=
          [{ role := "system", content := some (Json.str "be nice"),
             tool_calls := none, tool_call_id := none },
           { role := "user", content := some (Json.str "hello"),
             tool_calls := none, tool_call_id := none },
           { role := "system", content := some (Json.mkObj [("a", Json.num 1)]),
             tool_calls := none, tool_call_id := none }],
        model := none, max_tokens := none, temperature := none, stream := none,
        tools := none, tool_choice := none }).get "system" =
      some (Json.str "be nice\n\n\x7b\"a\":1\x7d") := by
  rw [(C6_system_messages_merged _).2]
  decide

/-- Brace matching only looks at the characters it consumes: a successful
match survives appending anything to the fragment. -/
theorem scanBalanced_append (g : List Char) :
    ∀ (cs : List Char) (d : Int) (s e : Bool) (n : Nat),
      scanBalanced cs d s e = some n → scanBalanced (cs ++ g) d s e = some n := by
  intro cs
  induction cs with
  | nil => intro d s e n h; simp [scanBalanced] at h
  | cons c cs ih =>
    intro d s e n h
    simp only [List.cons_append]
    simp only [scanBalanced] at h ⊢
    split_ifs at h ⊢ <;>
      first
      | exact h
      | (obtain ⟨m, hm, rfl⟩ := Option.map_eq_some'.mp h
         rw [ih _ _ _ _ hm]
         rfl)

/-- One-step unfolding of the scanning loop on a fragment whose scan begins
with a matched candidate: decode success returns that value, decode failure
continues after the candidate's closing brace (with canonical fuel). -/
theorem extractLoop_step (cs : List Char) (t : Char) (ts : List Char) (len : Nat)
    (htail : cs.dropWhile (fun c => c ≠ '\x7b') = t :: ts)
    (hscan : scanBalanced (t :: ts) 0 false false = some len) :
    extractLoop cs =
      (match decodeFrame ((t :: ts).take len) with
       | some v => some v
       | none => extractLoop ((t :: ts).drop len)) := by
  have hlen : (t :: ts).length ≤ cs.length := by
    have h0 : cs.dropWhile (fun c => c ≠ '\x7b') <:+ cs := List.dropWhile_suffix _
    have := h0.length_le
    rwa [htail] at this
  have hpos := scanBalanced_pos _ _ _ _ _ hscan
  rw [extractLoop]
  simp only [extractLoopF, htail, hscan]
  split
  · rfl
  · rw [extractLoop]
    apply extractLoopF_congr
    · simp only [List.length_drop, List.length_cons] at *
      omega
    · omega

/-- Appending bytes to a fragment cannot change a successful extraction:
every candidate the scan visits lies inside the original fragment. -/
theorem extractLoop_append :
    ∀ (N : Nat) (cs : List Char), cs.length ≤ N → ∀ (g : List Char) (v : Json),
      extractLoop cs = some v → extractLoop (cs ++ g) = some v := by
  intro N
  induction N with
  | zero =>
    intro cs hlen g v h
    have : cs = [] := List.length_eq_zero.mp (Nat.le_zero.mp hlen)
    subst this
    simp [extractLoop, extractLoopF] at h
  | succ N ih =>
    intro cs hlen g v h
    rcases hd : cs.dropWhile (fun c => c ≠ '\x7b') with _ | ⟨t, ts⟩
    · rw [extractLoop] at h
      simp only [extractLoopF, hd] at h
      simp at h
    · have hd2 : (cs ++ g).dropWhile (fun c => c ≠ '\x7b') = t :: (ts ++ g) := by
        rw [List.dropWhile_append, hd]
        simp
      rcases hs : scanBalanced (t :: ts) 0 false false with _ | len
      · rw [extractLoop] at h
        simp only [extractLoopF, hd, hs] at h
        simp at h
      · have hlen1 : (t :: ts).length ≤ cs.length := by
          have h0 : cs.dropWhile (fun c => c ≠ '\x7b') <:+ cs := List.dropWhile_suffix _
          have := h0.length_le
          rwa [hd] at this
        have hle := scanBalanced_le _ _ _ _ _ hs
        have hpos := scanBalanced_pos _ _ _ _ _ hs
        have hs2 : scanBalanced (t :: (ts ++ g)) 0 false false = some len := by
          have h2 := scanBalanced_append g (t :: ts) 0 false false len hs
          simpa using h2
        have htake : (t :: (ts ++ g)).take len = (t :: ts).take len := by
          rw [show t :: (ts ++ g) = (t :: ts) ++ g from rfl,
            List.take_append_of_le_length hle]
        have hdrop : (t :: (ts ++ g)).drop len = (t :: ts).drop len ++ g := by
          rw [show t :: (ts ++ g) = (t :: ts) ++ g from rfl,
            List.drop_append_of_le_length hle]
        rw [extractLoop_step cs t ts len hd hs] at h
        rw [extractLoop_step (cs ++ g) t (ts ++ g) len hd2 (by simpa using hs2), htake]
        rcases hdec : decodeFrame ((t :: ts).take len) with _ | w
        · rw [hdec] at h
          rw [hdrop]
          apply ih ((t :: ts).drop len) _ g v h
          simp only [List.length_drop, List.length_cons] at *
          omega
        · rw [hdec] at h
          exact h

/-- C8.  Frame-extraction failures are local and silent: (i) when the
first candidate brace-matches but any decode stage rejects it (invalid
outer JSON, missing or invalid base64 `bytes`, invalid UTF-8, invalid inner
JSON — all the cases `decodeFrame` returns `none` for), the extractor
continues scanning the rest of the fragment after the matched closing
brace; (ii) trailing garbage never disturbs a successful extraction: if a
fragment yields an event, that fragment followed by arbitrary bytes yields
the same event, and the extractor — a total function — raises no error. -/
theorem C8_failures_skipped :
    (∀ (s : String) (t : Char) (ts : List Char) (len : Nat),
      s.data.dropWhile (fun c => c ≠ '\x7b') = t :: ts →
      scanBalanced (t :: ts) 0 false false = some len →
      decodeFrame ((t :: ts).take len) = none →
      extract_json_from_bedrock_chunk s = extractLoop ((t :: ts).drop len))
    ∧ (∀ (s g : String) (v : Json),
      extract_json_from_bedrock_chunk s = some v →
      extract_json_from_bedrock_chunk (s ++ g) = some v) := by
  constructor
  · intro s t ts len htail hscan hdec
    rw [extract_json_from_bedrock_chunk, extractLoop_step s.data t ts len htail hscan, hdec]
  · intro s g v h
    rw [extract_json_from_bedrock_chunk, String.data_append]
    exact extractLoop_append s.data.length s.data (Nat.le_refl _) g.data v h

/-- C8, witness: a fragment opening with a candidate that fails JSON
parsing still yields the event of the following envelope, and appending
garbage to the specification's example envelope leaves its extraction
unchanged. -/
theorem C8_failures_skipped_witness :
    extract_json_from_bedrock_chunk ("\x7bnope\x7d" ++ envStop) =
      extractLoop (("\x7bnope\x7d" ++ envStop).data.drop 6)
    ∧ extract_json_from_bedrock_chunk (envStop ++ "\x01trailing \x7b garbage") = some evStop :=
  ⟨C8_failures_skipped.1 ("\x7bnope\x7d" ++ envStop) '\x7b'
      (("\x7bnope\x7d" ++ envStop).data.tail) 6 (by decide) (by decide) (by decide),
   C8_failures_skipped.2 envStop "\x01trailing \x7b garbage" evStop (by decide)⟩

/-- C5, witness at the specification's example payload
`{"prompt": "hi", "max_tokens_to_sample": 50}`. -/
theorem C5_prompt_rewrite_witness :
    transform_payload (Json.mkObj [("prompt", Json.str "hi"), ("max_tokens_to_sample", Json.num 50)]) =
      some (Json.obj
        [("anthropic_version", Json.str "bedrock-2023-05-31"),
         ("max_tokens", Json.num 50),
         ("messages",
          Json.arr [Json.obj [("content", Json.str "hi"), ("role", Json.str "user")]])]) := by
  rw [C5_prompt_rewrite _ "hi" (by decide) (by decide)]
  decide
